import Mathlib

/-!
Verification of the tfl-snapshot standings/ranking and matchup-pairing engine.

The definitions below are shallow embeddings of the TypeScript source:

* `src/lib/sort.ts` — win percentage, the two standings comparators, and the
  three ranking passes (`applySleeperDefaultRankings`, `applyRankings`,
  `applyPointsRaceRankings`);
* `src/unnamed/part_003` (an older revision of `lib/matchups.ts`) — the pairing
  functions `pairTopXvsTopX` and `pairDynasty`, the validity predicate
  `isValidWeekForLeague`, and the rule-name derivation `getMatchupRule`;
* `src/app/api/matchups/route.ts` and `src/unnamed/part_009` (the bracket-aware
  matchups route) — matchup status inference and bracket round filtering.

Modelling conventions: JavaScript numbers are embedded as `ℚ` (all arithmetic
performed by this code — sums, differences, the win-percentage division by a
small integer — is exact in double precision for realistic inputs, and the
comparators only use signs/equality of such values); counts are `ℕ`.
`Array.prototype.sort(cmp)` is a stable comparison sort (ECMA-262); it is
embedded as Mathlib's stable `List.insertionSort` on the decidable relation
`fun a b => cmp a b ≤ 0`, which produces the same list for every consistent
comparator.  Thrown exceptions are embedded with `Except`.
-/

namespace TflSnapshot

/-- The `Team` record of `src/lib/sleeper.ts` without its `rank` field:
the TypeScript functions in `sort.ts` take `Omit<Team, 'rank'>`. -/
structure TeamNR where
  rosterId : Nat
  ownerId : String
  displayName : String
  avatarUrl : Option String
  wins : Nat
  losses : Nat
  ties : Nat
  pointsFor : ℚ
  pointsAgainst : ℚ
  ppts : ℚ
deriving DecidableEq, Repr, Inhabited

/-- The full `Team` record of `src/lib/sleeper.ts` (a `TeamNR` plus `rank`). -/
structure Team extends TeamNR where
  rank : Nat
deriving DecidableEq, Repr, Inhabited

/-- League type union `'redraft' | 'dynasty'` of `src/lib/sort.ts`. -/
inductive LeagueType where
  | redraft
  | dynasty
deriving DecidableEq, Repr

/-- `calculateWinPercentage` of `src/lib/sort.ts`:
Win% = (wins + 0.5*ties) / (wins+losses+ties), and 0 when no games played. -/
def calculateWinPercentage (wins losses ties : Nat) : ℚ :=
  let totalGames : ℚ := (wins : ℚ) + (losses : ℚ) + (ties : ℚ)
  if totalGames = 0 then 0 else ((wins : ℚ) + (1/2) * (ties : ℚ)) / totalGames

/-- `sortStandingsSleeperDefault` of `src/lib/sort.ts`: the Sleeper default
comparator (win% desc, then pointsFor desc, then pointsAgainst desc, then
rosterId asc), returning a signed number like the JS comparator. -/
def sortStandingsSleeperDefault (a b : TeamNR) : ℚ :=
  let winPercentageA := calculateWinPercentage a.wins a.losses a.ties
  let winPercentageB := calculateWinPercentage b.wins b.losses b.ties
  if winPercentageA ≠ winPercentageB then winPercentageB - winPercentageA
  else if a.pointsFor ≠ b.pointsFor then b.pointsFor - a.pointsFor
  else if a.pointsAgainst ≠ b.pointsAgainst then b.pointsAgainst - a.pointsAgainst
  else (a.rosterId : ℚ) - (b.rosterId : ℚ)

/-- `sortStandings` of `src/lib/sort.ts`: the custom comparator (win% desc,
then pointsFor desc, then rosterId asc) — no pointsAgainst step. -/
def sortStandings (a b : TeamNR) : ℚ :=
  let winPercentageA := calculateWinPercentage a.wins a.losses a.ties
  let winPercentageB := calculateWinPercentage b.wins b.losses b.ties
  if winPercentageA ≠ winPercentageB then winPercentageB - winPercentageA
  else if a.pointsFor ≠ b.pointsFor then b.pointsFor - a.pointsFor
  else (a.rosterId : ℚ) - (b.rosterId : ℚ)

/-- The inline points comparator repeated verbatim inside
`applyPointsRaceRankings` and `applyRankings` in `src/lib/sort.ts`:
pointsFor descending, tie broken by rosterId ascending. -/
def comparePointsFor (a b : TeamNR) : ℚ :=
  if a.pointsFor ≠ b.pointsFor then b.pointsFor - a.pointsFor
  else (a.rosterId : ℚ) - (b.rosterId : ℚ)

/-- The sort relation induced by the JS comparator `sortStandingsSleeperDefault`. -/
def sleeperDefaultLe (a b : TeamNR) : Prop := sortStandingsSleeperDefault a b ≤ 0

/-- The sort relation induced by the JS comparator `sortStandings`. -/
def customLe (a b : TeamNR) : Prop := sortStandings a b ≤ 0

/-- The sort relation induced by the inline points comparator. -/
def pointsLe (a b : TeamNR) : Prop := comparePointsFor a b ≤ 0

instance : DecidableRel sleeperDefaultLe :=
  fun a b => inferInstanceAs (Decidable (sortStandingsSleeperDefault a b ≤ 0))

instance : DecidableRel customLe :=
  fun a b => inferInstanceAs (Decidable (sortStandings a b ≤ 0))

instance : DecidableRel pointsLe :=
  fun a b => inferInstanceAs (Decidable (comparePointsFor a b ≤ 0))

/-- The rank-assigning `map` shared by all three ranking passes in
`src/lib/sort.ts` (`finalOrder.map((team, index) => ({...team, rank: index + 1}))`),
with the running index made explicit. -/
def assignRanksFrom : Nat → List TeamNR → List Team
  | _, [] => []
  | n, t :: ts => ⟨t, n⟩ :: assignRanksFrom (n + 1) ts

/-- Rank assignment starting at rank 1, i.e. rank = 1-based position. -/
def assignRanks (l : List TeamNR) : List Team := assignRanksFrom 1 l

/-- `applySleeperDefaultRankings` of `src/lib/sort.ts`: sort by the Sleeper
default comparator and assign ranks 1..N. -/
def applySleeperDefaultRankings (teams : List TeamNR) : List Team :=
  assignRanks (List.insertionSort sleeperDefaultLe teams)

/-- `applyPointsRaceRankings` of `src/lib/sort.ts`: default-sort, keep the top
6 in place, re-sort the rest by the points comparator, assign ranks 1..N. -/
def applyPointsRaceRankings (teams : List TeamNR) : List Team :=
  let standardSorted := List.insertionSort sleeperDefaultLe teams
  let top6Qualified := standardSorted.take 6
  let remaining := standardSorted.drop 6
  let pointsSorted := List.insertionSort pointsLe remaining
  assignRanks (top6Qualified ++ pointsSorted)

/-- `applyRankings` of `src/lib/sort.ts`.  In the redraft branch the source
does `const candidatesForSeventh = remaining.sort(...)`: `Array.prototype.sort`
mutates `remaining` in place, so the later
`remaining.filter(team => team.rosterId !== actualSeventh.rosterId)` reads the
points-sorted order, not the order `remaining` had after the full sort.  The
embedding therefore filters the points-sorted list. -/
def applyRankings (teams : List TeamNR) (leagueType : Option LeagueType) : List Team :=
  let sortedTeams := List.insertionSort customLe teams
  if leagueType = some LeagueType.redraft ∧ 7 ≤ sortedTeams.length then
    let top6 := sortedTeams.take 6
    let candidatesForSeventh := List.insertionSort pointsLe (sortedTeams.drop 6)
    let actualSeventh := candidatesForSeventh.headI
    let remainingAfterSeventh :=
      candidatesForSeventh.filter (fun t => decide (t.rosterId ≠ actualSeventh.rosterId))
    assignRanks (top6 ++ actualSeventh :: remainingAfterSeventh)
  else
    assignRanks sortedTeams

/-- The `Pair` type of the matchups library (`src/unnamed/part_003`), with the
optional `status` field carried by the newer revision (`src/unnamed/part_007`,
`src/unnamed/part_009`) left to the route layer. -/
structure Pair where
  home : Team
  away : Team
deriving DecidableEq, Repr

/-- `pairTopXvsTopX` of `src/unnamed/part_003`: the loop
`for (i = 0; i < teams.length; i += 2) if (i + 1 < teams.length) push {home: teams[i], away: teams[i+1]}`
pairs consecutive teams and drops an unpaired trailing team. -/
def pairTopXvsTopX : List Team → List Pair
  | t1 :: t2 :: rest => ⟨t1, t2⟩ :: pairTopXvsTopX rest
  | _ => []

/-- The literal `weekRules` table of `pairDynasty` in `src/unnamed/part_003`
(0-based index pairs), `none` for a week outside the table. -/
def dynastyWeekRules (week : Nat) : Option (List (Nat × Nat)) :=
  match week with
  | 10 => some [(0, 1), (3, 4), (5, 6), (7, 8), (2, 9)]
  | 11 => some [(0, 2), (1, 9), (3, 5), (4, 6), (7, 8)]
  | 12 => some [(0, 3), (1, 4), (2, 5), (6, 7), (8, 9)]
  | 13 => some [(0, 1), (2, 4), (3, 5), (6, 7), (8, 9)]
  | _ => none

/-- `pairDynasty` of `src/unnamed/part_003`: requires exactly 10 teams, looks
the week up in the literal table and builds the pairs by index; throws (here:
`Except.error`) on a wrong team count or an unsupported week. -/
def pairDynasty (teams : List Team) (week : Nat) : Except String (List Pair) :=
  if teams.length ≠ 10 then
    Except.error "Liga Dynasty deve ter exatamente 10 times"
  else
    match dynastyWeekRules week with
    | none => Except.error "Semana nao e valida para Dynasty (deve ser 10, 11, 12 ou 13)"
    | some rules =>
        Except.ok (rules.map (fun p => ⟨teams.getD p.1 default, teams.getD p.2 default⟩))

/-- `isValidWeekForLeague` of `src/unnamed/part_003`: redraft accepts only
week 14, dynasty accepts `[10, 11, 12, 13].includes(week)`. -/
def isValidWeekForLeague (leagueType : LeagueType) (week : Nat) : Bool :=
  match leagueType with
  | LeagueType.redraft => week == 14
  | LeagueType.dynasty => week == 10 || week == 11 || week == 12 || week == 13

/-- `getMatchupRule` of `src/unnamed/part_003`: returns the strategy
identifier, throwing (here: `Except.error`) on an invalid combination. -/
def getMatchupRule (leagueType : LeagueType) (week : Nat) : Except String String :=
  if leagueType = LeagueType.redraft ∧ week = 14 then
    Except.ok "redraft-topx"
  else if leagueType = LeagueType.dynasty ∧ (week = 10 ∨ week = 11 ∨ week = 12 ∨ week = 13) then
    Except.ok (s!"dynasty-week{week}")
  else
    Except.error "Combinacao invalida"

/-- Modelled from the spec: the current revision of the matchups library is
missing from `src/` — the bracket-aware route (`src/unnamed/part_009`) and the
card component import `BracketRound`/`BracketMatch` from `@/lib/matchups`,
which the older revision `src/unnamed/part_003` does not export, and `src/lib/`
contains no `matchups.ts` at all.  Per spec §4.3, that revision's validity
predicate accepts "one fixed value for consecutive pairing; a fixed small set
for fixed-table; an open set ≥ the playoff start week for bracket mode", where
consecutive pairing is the redraft format at week 14, the fixed table is the
dynasty format at weeks 10–13, and bracket mode is the dynasty format's
playoffs from the configured playoff start week on. -/
def isValidWeekForLeagueCurrent (playoffStartWeek : Nat) (leagueType : LeagueType)
    (week : Nat) : Bool :=
  match leagueType with
  | LeagueType.redraft => week == 14
  | LeagueType.dynasty =>
      week == 10 || week == 11 || week == 12 || week == 13 || decide (playoffStartWeek ≤ week)

/-- The matchup status union `'scheduled' | 'in_progress' | 'final'`. -/
inductive MatchStatus where
  | scheduled
  | in_progress
  | final
deriving DecidableEq, Repr

/-- JS truthiness of the bracket field `match.w` (`null`/`undefined`/`0` are
falsy, any other roster id is truthy). -/
def jsTruthyWinner : Option Nat → Bool
  | none => false
  | some w => w != 0

/-- Status inference of the playoff-bracket path (`src/app/api/matchups/route.ts`
lines 162–175 and `src/unnamed/part_009`): `final` when `match.w` is truthy,
else `in_progress` when either side's points are positive, else `scheduled`. -/
def bracketMatchStatus (w : Option Nat) (homePointsFor awayPointsFor : ℚ) : MatchStatus :=
  if jsTruthyWinner w then MatchStatus.final
  else if 0 < homePointsFor ∨ 0 < awayPointsFor then MatchStatus.in_progress
  else MatchStatus.scheduled

/-- Status inference of the dynasty regular-season path
(`src/app/api/matchups/route.ts` lines 209–217, repeated in
`src/unnamed/part_009`): `final` when both sides' points are positive,
otherwise `scheduled` — there is no winner field and no `in_progress` case. -/
def dynastyRegularStatus (homePointsFor awayPointsFor : ℚ) : MatchStatus :=
  if 0 < homePointsFor ∧ 0 < awayPointsFor then MatchStatus.final
  else MatchStatus.scheduled

/-- The `BracketMatch` record built by the bracket route (`src/unnamed/part_009`). -/
structure BracketMatch where
  id : Nat
  round : Nat
  week : Nat
  home : Team
  away : Team
  status : MatchStatus
  winner_id : Option Nat
  title : Option String := none
deriving DecidableEq, Repr

/-- Sort relation for `matches.sort((a, b) => a.id - b.id)` in the bracket route. -/
def bracketIdLe (a b : BracketMatch) : Prop := a.id ≤ b.id

instance : DecidableRel bracketIdLe :=
  fun a b => inferInstanceAs (Decidable (a.id ≤ b.id))

/-- The per-round filtering/title assignment of the bracket route
(`src/unnamed/part_009` lines 207–255): matches are sorted by id ascending;
in the last round the first match is titled `"🏆 Final"` and a second (if
present) `"🥉 3rd Place"`, further matches are dropped; in the penultimate
round the first two are titled `"Semi-Final"`, the rest dropped; earlier
rounds keep every match titled `"Quarter-Final"`. -/
def filterRoundMatches (r totalRounds : Nat) (roundMatches : List BracketMatch) :
    List BracketMatch :=
  let sortedMatches := List.insertionSort bracketIdLe roundMatches
  if r = totalRounds then
    match sortedMatches with
    | [] => []
    | [m0] => [{ m0 with title := some "🏆 Final" }]
    | m0 :: m1 :: _ =>
        [{ m0 with title := some "🏆 Final" }, { m1 with title := some "🥉 3rd Place" }]
  else if r = totalRounds - 1 then
    match sortedMatches with
    | [] => []
    | [m0] => [{ m0 with title := some "Semi-Final" }]
    | m0 :: m1 :: _ =>
        [{ m0 with title := some "Semi-Final" }, { m1 with title := some "Semi-Final" }]
  else
    sortedMatches.map (fun m => { m with title := some "Quarter-Final" })

/-!
Order-theoretic infrastructure: each JS comparator is characterised by a
lexicographic key, from which totality and transitivity of the induced sort
relations follow.
-/

/-- One step of a JS comparator chain `if (x !== y) return y - x; ...`:
its sign test is a lexicographic comparison on the negated key. -/
lemma step_iff (x y rest : ℚ) (P : Prop) (hP : rest ≤ 0 ↔ P) :
    (if x ≠ y then y - x else rest) ≤ 0 ↔ (-x < -y ∨ (-x = -y ∧ P)) := by
  split_ifs with h
  · constructor
    · intro hle
      have hyx : y < x := lt_of_le_of_ne (by linarith) (Ne.symm h)
      exact Or.inl (by linarith)
    · rintro (hlt | ⟨heq, _⟩)
      · linarith
      · exact absurd (by linarith : x = y) h
  · push_neg at h
    constructor
    · intro hle
      exact Or.inr ⟨by rw [h], hP.mp hle⟩
    · rintro (hlt | ⟨_, hp⟩)
      · rw [h] at hlt
        exact absurd hlt (lt_irrefl _)
      · exact hP.mpr hp

/-- Lexicographic key of the Sleeper default comparator. -/
def defaultKey (t : TeamNR) : ℚ ×ₗ (ℚ ×ₗ (ℚ ×ₗ ℚ)) :=
  toLex (-(calculateWinPercentage t.wins t.losses t.ties),
    toLex (-t.pointsFor, toLex (-t.pointsAgainst, (t.rosterId : ℚ))))

/-- Lexicographic key of the custom comparator. -/
def customKey (t : TeamNR) : ℚ ×ₗ (ℚ ×ₗ ℚ) :=
  toLex (-(calculateWinPercentage t.wins t.losses t.ties),
    toLex (-t.pointsFor, (t.rosterId : ℚ)))

/-- Lexicographic key of the inline points comparator. -/
def pointsKey (t : TeamNR) : ℚ ×ₗ ℚ :=
  toLex (-t.pointsFor, (t.rosterId : ℚ))

lemma sleeperDefaultLe_iff_key (a b : TeamNR) :
    sleeperDefaultLe a b ↔ defaultKey a ≤ defaultKey b := by
  unfold sleeperDefaultLe sortStandingsSleeperDefault defaultKey
  rw [Prod.Lex.le_iff]
  dsimp only
  rw [Prod.Lex.le_iff]
  dsimp only
  rw [Prod.Lex.le_iff]
  dsimp only
  exact step_iff _ _ _ _ (step_iff _ _ _ _ (step_iff _ _ _ _ sub_nonpos))

lemma customLe_iff_key (a b : TeamNR) :
    customLe a b ↔ customKey a ≤ customKey b := by
  unfold customLe sortStandings customKey
  rw [Prod.Lex.le_iff]
  dsimp only
  rw [Prod.Lex.le_iff]
  dsimp only
  exact step_iff _ _ _ _ (step_iff _ _ _ _ sub_nonpos)

lemma pointsLe_iff_key (a b : TeamNR) :
    pointsLe a b ↔ pointsKey a ≤ pointsKey b := by
  unfold pointsLe comparePointsFor pointsKey
  rw [Prod.Lex.le_iff]
  dsimp only
  exact step_iff _ _ _ _ sub_nonpos

instance : IsTotal TeamNR sleeperDefaultLe :=
  ⟨fun a b => by
    rw [sleeperDefaultLe_iff_key, sleeperDefaultLe_iff_key]
    exact le_total _ _⟩

instance : IsTrans TeamNR sleeperDefaultLe :=
  ⟨fun a b c hab hbc => by
    rw [sleeperDefaultLe_iff_key] at hab hbc ⊢
    exact le_trans hab hbc⟩

instance : IsTotal TeamNR customLe :=
  ⟨fun a b => by
    rw [customLe_iff_key, customLe_iff_key]
    exact le_total _ _⟩

instance : IsTrans TeamNR customLe :=
  ⟨fun a b c hab hbc => by
    rw [customLe_iff_key] at hab hbc ⊢
    exact le_trans hab hbc⟩

instance : IsTotal TeamNR pointsLe :=
  ⟨fun a b => by
    rw [pointsLe_iff_key, pointsLe_iff_key]
    exact le_total _ _⟩

instance : IsTrans TeamNR pointsLe :=
  ⟨fun a b c hab hbc => by
    rw [pointsLe_iff_key] at hab hbc ⊢
    exact le_trans hab hbc⟩

instance : IsTotal BracketMatch bracketIdLe := ⟨fun a b => Nat.le_total a.id b.id⟩

instance : IsTrans BracketMatch bracketIdLe := ⟨fun _ _ _ hab hbc => le_trans hab hbc⟩

/-!
Congruence of the stable sort in the relation: two comparators that agree on
every pair of elements of the input produce the same sorted list.
-/

lemma orderedInsert_congr {α : Type} (r s : α → α → Prop) [DecidableRel r] [DecidableRel s]
    (a : α) : ∀ l : List α, (∀ b ∈ l, (r a b ↔ s a b)) →
    List.orderedInsert r a l = List.orderedInsert s a l
  | [], _ => rfl
  | b :: l, h => by
    simp only [List.orderedInsert]
    by_cases hrb : r a b
    · rw [if_pos hrb, if_pos ((h b (List.mem_cons_self b l)).mp hrb)]
    · rw [if_neg hrb, if_neg (fun hs => hrb ((h b (List.mem_cons_self b l)).mpr hs))]
      exact congrArg (b :: ·)
        (orderedInsert_congr r s a l fun c hc => h c (List.mem_cons_of_mem _ hc))

lemma insertionSort_congr {α : Type} (r s : α → α → Prop) [DecidableRel r] [DecidableRel s] :
    ∀ l : List α, (∀ a ∈ l, ∀ b ∈ l, (r a b ↔ s a b)) →
    List.insertionSort r l = List.insertionSort s l
  | [], _ => rfl
  | a :: l, h => by
    simp only [List.insertionSort]
    rw [insertionSort_congr r s l
      (fun x hx y hy => h x (List.mem_cons_of_mem _ hx) y (List.mem_cons_of_mem _ hy))]
    exact orderedInsert_congr r s a _ fun b hb =>
      h a (List.mem_cons_self a l) b (List.mem_cons_of_mem _ ((List.mem_insertionSort s).mp hb))

/-!
Elementary facts about the rank-assigning pass.
-/

lemma assignRanksFrom_map_base : ∀ (n : Nat) (l : List TeamNR),
    (assignRanksFrom n l).map Team.toTeamNR = l
  | _, [] => rfl
  | n, t :: ts => by
    simp only [assignRanksFrom, List.map_cons, List.cons.injEq]
    exact ⟨trivial, assignRanksFrom_map_base (n + 1) ts⟩

lemma assignRanksFrom_map_rank : ∀ (n : Nat) (l : List TeamNR),
    (assignRanksFrom n l).map Team.rank = List.range' n l.length
  | _, [] => rfl
  | n, t :: ts => by
    simp only [assignRanksFrom, List.map_cons, List.length_cons, List.range'_succ,
      List.cons.injEq]
    exact ⟨trivial, assignRanksFrom_map_rank (n + 1) ts⟩

lemma assignRanksFrom_take : ∀ (n k : Nat) (l : List TeamNR),
    (assignRanksFrom n l).take k = assignRanksFrom n (l.take k)
  | _, _, [] => by simp [assignRanksFrom]
  | _, 0, _ :: _ => rfl
  | n, k + 1, t :: ts => by
    simp only [assignRanksFrom, List.take_succ_cons, List.cons.injEq]
    exact ⟨trivial, assignRanksFrom_take (n + 1) k ts⟩

lemma assignRanksFrom_length (n : Nat) (l : List TeamNR) :
    (assignRanksFrom n l).length = l.length := by
  have := congrArg List.length (assignRanksFrom_map_base n l)
  simpa using this

lemma pairTopXvsTopX_length : ∀ teams : List Team,
    (pairTopXvsTopX teams).length = teams.length / 2
  | [] => by simp [pairTopXvsTopX]
  | [_] => by simp [pairTopXvsTopX]
  | _ :: _ :: rest => by
    simp only [pairTopXvsTopX, List.length_cons]
    rw [pairTopXvsTopX_length rest]
    omega

lemma pairTopXvsTopX_getElem? : ∀ (teams : List Team) (k : Nat),
    (pairTopXvsTopX teams)[k]? = Option.map₂ Pair.mk teams[2 * k]? teams[2 * k + 1]?
  | [], k => by simp [pairTopXvsTopX]
  | [t], k => by
    have hlen : ([t] : List Team).length = 1 := rfl
    have h1 : ([t] : List Team)[2 * k + 1]? = none := List.getElem?_eq_none (by omega)
    simp [pairTopXvsTopX, h1, Option.map₂_none_right]
  | t1 :: t2 :: rest, k => by
    cases k with
    | zero => simp [pairTopXvsTopX, Option.map₂_some_some]
    | succ n =>
      have h1 : 2 * (n + 1) = 2 * n + 1 + 1 := by ring
      have h2 : 2 * (n + 1) + 1 = 2 * n + 1 + 1 + 1 := by ring
      simp only [pairTopXvsTopX, List.getElem?_cons_succ, h1, h2]
      exact pairTopXvsTopX_getElem? rest n

/-- Claim C7: consecutive pairing produces exactly `⌊N/2⌋` pairs, pair `k`
is `home = teams[2k]`, `away = teams[2k+1]` in rank order, and when `N` is
odd the trailing team appears in no pair (indices past `⌊N/2⌋` give `none`). -/
theorem c7_consecutive_pairing (teams : List Team) :
    (pairTopXvsTopX teams).length = teams.length / 2 ∧
    ∀ k : Nat, (pairTopXvsTopX teams)[k]? = Option.map₂ Pair.mk teams[2 * k]? teams[2 * k + 1]? :=
  ⟨pairTopXvsTopX_length teams, pairTopXvsTopX_getElem? teams⟩

/-- Claim C8: dynasty fixed-table pairing at week 10 on exactly 10 teams
yields precisely the pairs at 1-indexed rank positions
[[1,2],[4,5],[6,7],[8,9],[3,10]], in that order, from the literal table. -/
theorem c8_dynasty_week10 (t1 t2 t3 t4 t5 t6 t7 t8 t9 t10 : Team) :
    pairDynasty [t1, t2, t3, t4, t5, t6, t7, t8, t9, t10] 10 =
      Except.ok [⟨t1, t2⟩, ⟨t4, t5⟩, ⟨t6, t7⟩, ⟨t8, t9⟩, ⟨t3, t10⟩] := by
  rfl

/-- Claim C3: the (format, week) validity predicate.  The older revision in
`src/` (`isValidWeekForLeague` of `src/unnamed/part_003`) accepts exactly
redraft ↦ {14} and dynasty ↦ {10,11,12,13} and its companion
`getMatchupRule` succeeds on exactly the same combinations; the current
revision (modelled from the spec, see `isValidWeekForLeagueCurrent`)
additionally accepts every week ≥ the playoff start week for the dynasty
format's bracket mode, and nothing else. -/
theorem c3_validity_predicate (ps : Nat) (lt : LeagueType) (w : Nat) :
    (isValidWeekForLeagueCurrent ps lt w = true ↔
      (lt = LeagueType.redraft ∧ w = 14) ∨
      (lt = LeagueType.dynasty ∧ (w = 10 ∨ w = 11 ∨ w = 12 ∨ w = 13)) ∨
      (lt = LeagueType.dynasty ∧ ps ≤ w)) ∧
    (isValidWeekForLeague lt w = true ↔
      (lt = LeagueType.redraft ∧ w = 14) ∨
      (lt = LeagueType.dynasty ∧ (w = 10 ∨ w = 11 ∨ w = 12 ∨ w = 13))) ∧
    (getMatchupRule lt w).isOk = isValidWeekForLeague lt w := by
  refine ⟨?_, ?_, ?_⟩
  · cases lt <;> simp [isValidWeekForLeagueCurrent] <;> tauto
  · cases lt <;> simp [isValidWeekForLeague] <;> tauto
  · cases lt
    case redraft =>
      by_cases h : w = 14
      · subst h
        rfl
      · have hb : (w == 14) = false := beq_eq_false_iff_ne.mpr h
        simp only [getMatchupRule, isValidWeekForLeague, hb]
        rw [if_neg (by simp [h]), if_neg (by simp)]
        rfl
    case dynasty =>
      by_cases h : w = 10 ∨ w = 11 ∨ w = 12 ∨ w = 13
      · rcases h with rfl | rfl | rfl | rfl <;> rfl
      · push_neg at h
        have h10 : (w == 10) = false := beq_eq_false_iff_ne.mpr h.1
        have h11 : (w == 11) = false := beq_eq_false_iff_ne.mpr h.2.1
        have h12 : (w == 12) = false := beq_eq_false_iff_ne.mpr h.2.2.1
        have h13 : (w == 13) = false := beq_eq_false_iff_ne.mpr h.2.2.2
        simp only [getMatchupRule, isValidWeekForLeague, h10, h11, h12, h13, Bool.false_or]
        rw [if_neg (by simp), if_neg (by simp [h.1, h.2.1, h.2.2.1, h.2.2.2])]
        rfl

/-- Claim C4 (amended): in the playoff-bracket path the inferred status
follows the claimed rule (declared winner → `final`; otherwise a side with
positive points → `in_progress`; otherwise `scheduled`); in the dynasty
regular-season path the inferred status is instead `final` when both sides
have positive points and `scheduled` otherwise. -/
theorem c4_status_inference (w : Option Nat) (hp ap : ℚ) (hh : 0 ≤ hp) (ha : 0 ≤ ap) :
    (jsTruthyWinner w = true → bracketMatchStatus w hp ap = MatchStatus.final) ∧
    (jsTruthyWinner w = false → hp ≠ 0 ∨ ap ≠ 0 →
      bracketMatchStatus w hp ap = MatchStatus.in_progress) ∧
    (jsTruthyWinner w = false → hp = 0 → ap = 0 →
      bracketMatchStatus w hp ap = MatchStatus.scheduled) ∧
    dynastyRegularStatus hp ap =
      (if 0 < hp ∧ 0 < ap then MatchStatus.final else MatchStatus.scheduled) := by
  refine ⟨?_, ?_, ?_, rfl⟩
  · intro ht
    simp [bracketMatchStatus, ht]
  · intro hf hne
    have hpos : 0 < hp ∨ 0 < ap := by
      rcases hne with hne | hne
      · exact Or.inl (lt_of_le_of_ne hh (Ne.symm hne))
      · exact Or.inr (lt_of_le_of_ne ha (Ne.symm hne))
    simp [bracketMatchStatus, hf, hpos]
  · intro hf h0 a0
    simp [bracketMatchStatus, hf, h0, a0]

/-- Claim C4, witness: the amended rule evaluated at concrete inputs. -/
theorem c4_status_witness :
    bracketMatchStatus (some 3) 50 0 = MatchStatus.final ∧
    bracketMatchStatus none 50 0 = MatchStatus.in_progress ∧
    bracketMatchStatus none 0 0 = MatchStatus.scheduled ∧
    dynastyRegularStatus 50 0 = MatchStatus.scheduled := by
  have h1 := c4_status_inference (some 3) 50 0 (by norm_num) (le_refl 0)
  have h2 := c4_status_inference none 50 0 (by norm_num) (le_refl 0)
  have h3 := c4_status_inference none 0 0 (le_refl 0) (le_refl 0)
  refine ⟨h1.1 rfl, h2.2.1 rfl (Or.inl (by norm_num)), h3.2.2.1 rfl rfl rfl, ?_⟩
  exact h2.2.2.2.trans (if_neg (by norm_num))

/-- Claim C4, counterexample: in the dynasty regular-season path a pair with
one nonzero side and no declared winner is `scheduled`, not `in_progress`
as the claim states. -/
theorem c4_status_counterexample :
    dynastyRegularStatus 50 0 = MatchStatus.scheduled ∧
    dynastyRegularStatus 50 0 ≠ MatchStatus.in_progress := by
  constructor
  · rfl
  · decide

/-- Claim C9 (amended): in the final round (the maximum round number present)
the surfaced matches are the first two of the id-ascending sort, titled
`"🏆 Final"` and `"🥉 3rd Place"` in that order (the code prefixes the
titles with trophy/medal emoji), and no further matches are surfaced. -/
theorem c9_final_round_filter (r total : Nat) (rm : List BracketMatch) (hr : r = total) :
    (List.insertionSort bracketIdLe rm).Sorted bracketIdLe ∧
    filterRoundMatches r total rm =
      List.zipWith (fun m t => { m with title := some t })
        ((List.insertionSort bracketIdLe rm).take 2) ["🏆 Final", "🥉 3rd Place"] ∧
    (filterRoundMatches r total rm).length ≤ 2 := by
  subst hr
  have hsorted := List.sorted_insertionSort bracketIdLe rm
  have heq : filterRoundMatches r r rm =
      List.zipWith (fun m t => { m with title := some t })
        ((List.insertionSort bracketIdLe rm).take 2) ["🏆 Final", "🥉 3rd Place"] := by
    unfold filterRoundMatches
    rw [if_pos rfl]
    rcases List.insertionSort bracketIdLe rm with _ | ⟨m0, _ | ⟨m1, rest⟩⟩ <;> rfl
  refine ⟨hsorted, heq, ?_⟩
  rw [heq, List.length_zipWith]
  exact le_trans (Nat.min_le_right _ _) (by simp)

/-- A round-3 final match record with id 5 (teams are irrelevant placeholders). -/
def c9match5 : BracketMatch :=
  ⟨5, 3, 16, default, default, MatchStatus.scheduled, none, none⟩

/-- A round-3 consolation match record with id 6. -/
def c9match6 : BracketMatch :=
  ⟨6, 3, 16, default, default, MatchStatus.scheduled, none, none⟩

/-- Claim C9, witness: the end-to-end scenario — a 3-round bracket whose round
3 holds matches with ids 5 and 6 surfaces exactly two matches, the id-5 match
first with the final title, the id-6 match second with the third-place title. -/
theorem c9_final_round_witness :
    (3 : Nat) = 3 ∧
    filterRoundMatches 3 3 [c9match6, c9match5] =
      [{ c9match5 with title := some "🏆 Final" },
       { c9match6 with title := some "🥉 3rd Place" }] := by
  have h := (c9_final_round_filter 3 3 [c9match6, c9match5] rfl).2.1
  exact ⟨rfl, h.trans (by rfl)⟩

/-- Claim C9, counterexample: the surfaced titles carry emoji prefixes, so
they are not the literal strings "Final" and "3rd Place" the claim names. -/
theorem c9_final_round_counterexample :
    (filterRoundMatches 3 3 [c9match6, c9match5]).map BracketMatch.title =
      [some "🏆 Final", some "🥉 3rd Place"] ∧
    (filterRoundMatches 3 3 [c9match6, c9match5]).map BracketMatch.title ≠
      [some "Final", some "3rd Place"] := by
  constructor
  · rfl
  · decide

/-- Strict version of `step_iff`: one comparator chain step returns a
negative number exactly when the first key decides in `a`'s favour, or ties
and the rest of the chain is negative. -/
lemma step_lt_iff (x y rest : ℚ) (P : Prop) (hP : rest < 0 ↔ P) :
    (if x ≠ y then y - x else rest) < 0 ↔ (y < x ∨ (x = y ∧ P)) := by
  split_ifs with h
  · constructor
    · intro hlt
      exact Or.inl (by linarith)
    · rintro (hlt | ⟨heq, _⟩)
      · linarith
      · exact absurd heq h
  · push_neg at h
    constructor
    · intro hlt
      exact Or.inr ⟨h, hP.mp hlt⟩
    · rintro (hlt | ⟨_, hp⟩)
      · rw [h] at hlt
        exact absurd hlt (lt_irrefl _)
      · exact hP.mpr hp

/-- Zero version of `step_iff`: one comparator chain step returns zero
exactly when the first key ties and the rest of the chain is zero. -/
lemma step_eq_iff (x y rest : ℚ) (P : Prop) (hP : rest = 0 ↔ P) :
    (if x ≠ y then y - x else rest) = 0 ↔ (x = y ∧ P) := by
  split_ifs with h
  · constructor
    · intro h0
      exact absurd (by linarith : x = y) h
    · rintro ⟨heq, _⟩
      exact absurd heq h
  · push_neg at h
    constructor
    · intro h0
      exact ⟨h, hP.mp h0⟩
    · rintro ⟨_, hp⟩
      exact hP.mpr hp

/-- Non-strict, un-negated version of `step_iff`. -/
lemma step_le_iff (x y rest : ℚ) (P : Prop) (hP : rest ≤ 0 ↔ P) :
    (if x ≠ y then y - x else rest) ≤ 0 ↔ (y < x ∨ (x = y ∧ P)) := by
  split_ifs with h
  · constructor
    · intro hle
      exact Or.inl (lt_of_le_of_ne (by linarith) (Ne.symm h))
    · rintro (hlt | ⟨heq, _⟩)
      · linarith
      · exact absurd heq h
  · push_neg at h
    constructor
    · intro hle
      exact Or.inr ⟨h, hP.mp hle⟩
    · rintro (hlt | ⟨_, hp⟩)
      · rw [h] at hlt
        exact absurd hlt (lt_irrefl _)
      · exact hP.mpr hp

/-- Follows the spec's words: win percentage is
`(wins + 0.5*ties) / (wins+losses+ties)`, defined as 0 when no games played. -/
def specWinPercentage (wins losses ties : Nat) : ℚ :=
  if wins + losses + ties = 0 then 0
  else ((wins : ℚ) + (1/2) * (ties : ℚ)) / ((wins : ℚ) + (losses : ℚ) + (ties : ℚ))

lemma specWinPercentage_eq (w l t : Nat) :
    specWinPercentage w l t = calculateWinPercentage w l t := by
  unfold specWinPercentage calculateWinPercentage
  dsimp only
  by_cases h : w + l + t = 0
  · have h0 : w = 0 ∧ l = 0 ∧ t = 0 := by omega
    have hq : ((w : ℚ) + (l : ℚ) + (t : ℚ)) = 0 := by
      simp [h0.1, h0.2.1, h0.2.2]
    rw [if_pos h, if_pos hq]
  · have hq : ¬((w : ℚ) + (l : ℚ) + (t : ℚ)) = 0 := by
      intro hq0
      apply h
      have hc : ((w + l + t : Nat) : ℚ) = 0 := by push_cast; linarith
      exact_mod_cast hc
    rw [if_neg h, if_neg hq]

/-- Follows the spec's words: team `a` strictly precedes team `b` under the
default comparator iff it wins on the first differing key of
(win% desc, points-for desc, points-against desc, roster id asc). -/
def specDefaultBefore (a b : TeamNR) : Prop :=
  specWinPercentage b.wins b.losses b.ties < specWinPercentage a.wins a.losses a.ties ∨
  (specWinPercentage a.wins a.losses a.ties = specWinPercentage b.wins b.losses b.ties ∧
    (b.pointsFor < a.pointsFor ∨
      (a.pointsFor = b.pointsFor ∧
        (b.pointsAgainst < a.pointsAgainst ∨
          (a.pointsAgainst = b.pointsAgainst ∧ a.rosterId < b.rosterId)))))

/-- Claim C5: the default comparator orders two teams by win percentage
descending, then points-for descending, then points-against descending, then
roster id ascending (with win percentage given by the spec's formula), and the
default ranking function returns the teams sorted by this comparator with
rank = 1-based position. -/
theorem c5_default_comparator_and_ranking (teams : List TeamNR) :
    (∀ a b, sortStandingsSleeperDefault a b < 0 ↔ specDefaultBefore a b) ∧
    (∀ a b, sortStandingsSleeperDefault a b = 0 ↔
      (calculateWinPercentage a.wins a.losses a.ties =
          calculateWinPercentage b.wins b.losses b.ties ∧
        a.pointsFor = b.pointsFor ∧ a.pointsAgainst = b.pointsAgainst ∧
        a.rosterId = b.rosterId)) ∧
    (applySleeperDefaultRankings teams).map Team.toTeamNR =
      List.insertionSort sleeperDefaultLe teams ∧
    ((applySleeperDefaultRankings teams).map Team.toTeamNR).Sorted sleeperDefaultLe ∧
    ((applySleeperDefaultRankings teams).map Team.toTeamNR).Perm teams ∧
    (applySleeperDefaultRankings teams).map Team.rank = List.range' 1 teams.length := by
  have hmapbase : (applySleeperDefaultRankings teams).map Team.toTeamNR =
      List.insertionSort sleeperDefaultLe teams := assignRanksFrom_map_base 1 _
  refine ⟨?_, ?_, hmapbase, ?_, ?_, ?_⟩
  · intro a b
    unfold specDefaultBefore
    rw [specWinPercentage_eq, specWinPercentage_eq]
    unfold sortStandingsSleeperDefault
    dsimp only
    exact step_lt_iff _ _ _ _ (step_lt_iff _ _ _ _ (step_lt_iff _ _ _ _
      (by rw [sub_neg]; exact Nat.cast_lt)))
  · intro a b
    unfold sortStandingsSleeperDefault
    dsimp only
    exact step_eq_iff _ _ _ _ (step_eq_iff _ _ _ _ (step_eq_iff _ _ _ _
      (by rw [sub_eq_zero]; exact Nat.cast_inj)))
  · rw [hmapbase]
    exact List.sorted_insertionSort sleeperDefaultLe teams
  · rw [hmapbase]
    exact List.perm_insertionSort sleeperDefaultLe teams
  · rw [show (applySleeperDefaultRankings teams).map Team.rank =
        List.range' 1 (List.insertionSort sleeperDefaultLe teams).length from
      assignRanksFrom_map_rank 1 _]
    rw [(List.perm_insertionSort sleeperDefaultLe teams).length_eq]

/-- Follows the spec's words: the points-race order on the remainder —
points-for descending, ties broken by roster id ascending. -/
def specPointsOrder (a b : TeamNR) : Prop :=
  b.pointsFor < a.pointsFor ∨ (a.pointsFor = b.pointsFor ∧ a.rosterId ≤ b.rosterId)

lemma pointsLe_iff_spec (a b : TeamNR) : pointsLe a b ↔ specPointsOrder a b := by
  unfold pointsLe comparePointsFor specPointsOrder
  exact step_le_iff _ _ _ _ (by rw [sub_nonpos]; exact Nat.cast_le)

lemma take6_append_pointsSorted (s : List TeamNR) :
    (s.take 6 ++ List.insertionSort pointsLe (s.drop 6)).take 6 = s.take 6 := by
  rcases le_or_lt 6 s.length with h | h
  · have hlen : (s.take 6).length = 6 := by
      rw [List.length_take]
      omega
    rw [List.take_append_eq_append_take, hlen]
    simp [List.take_take]
  · have hdrop : s.drop 6 = [] := List.drop_eq_nil_of_le (by omega)
    rw [hdrop]
    simp [List.take_take]

lemma drop6_append_pointsSorted (s : List TeamNR) :
    (s.take 6 ++ List.insertionSort pointsLe (s.drop 6)).drop 6 =
      List.insertionSort pointsLe (s.drop 6) := by
  rcases le_or_lt 6 s.length with h | h
  · have hlen : (s.take 6).length = 6 := by
      rw [List.length_take]
      omega
    rw [List.drop_append_eq_append_drop, hlen]
    simp [List.drop_eq_nil_of_le (le_of_eq hlen)]
  · have hdrop : s.drop 6 = [] := List.drop_eq_nil_of_le (by omega)
    rw [hdrop]
    have hlen : (s.take 6).length ≤ 6 := by
      rw [List.length_take]
      omega
    simp [List.drop_eq_nil_of_le hlen]

/-- Claim C6: the Points-Race Reseeder keeps the first 6 teams of the plain
default sort in place, orders the remaining teams (positions 7..N) by
points-for descending with ties broken by roster id ascending, and assigns
each output team a rank equal to its 1-based output position. -/
theorem c6_points_race_reseeder (teams : List TeamNR) :
    ((applyPointsRaceRankings teams).map Team.toTeamNR).take 6 =
      (List.insertionSort sleeperDefaultLe teams).take 6 ∧
    (((applyPointsRaceRankings teams).map Team.toTeamNR).drop 6).Sorted specPointsOrder ∧
    (((applyPointsRaceRankings teams).map Team.toTeamNR).drop 6).Perm
      ((List.insertionSort sleeperDefaultLe teams).drop 6) ∧
    (applyPointsRaceRankings teams).map Team.rank = List.range' 1 teams.length := by
  have hmapbase : (applyPointsRaceRankings teams).map Team.toTeamNR =
      (List.insertionSort sleeperDefaultLe teams).take 6 ++
        List.insertionSort pointsLe ((List.insertionSort sleeperDefaultLe teams).drop 6) :=
    assignRanksFrom_map_base 1 _
  refine ⟨?_, ?_, ?_, ?_⟩
  · rw [hmapbase]
    exact take6_append_pointsSorted _
  · rw [hmapbase, drop6_append_pointsSorted]
    exact (List.sorted_insertionSort pointsLe _).imp fun h => (pointsLe_iff_spec _ _).mp h
  · rw [hmapbase, drop6_append_pointsSorted]
    exact List.perm_insertionSort pointsLe _
  · rw [show (applyPointsRaceRankings teams).map Team.rank =
        List.range' 1 ((List.insertionSort sleeperDefaultLe teams).take 6 ++
          List.insertionSort pointsLe
            ((List.insertionSort sleeperDefaultLe teams).drop 6)).length from
      assignRanksFrom_map_rank 1 _]
    have hlen : ((List.insertionSort sleeperDefaultLe teams).take 6 ++
        List.insertionSort pointsLe
          ((List.insertionSort sleeperDefaultLe teams).drop 6)).length = teams.length := by
      rw [List.length_append, List.length_take,
        (List.perm_insertionSort pointsLe _).length_eq, List.length_drop,
        (List.perm_insertionSort sleeperDefaultLe teams).length_eq]
      omega
    rw [hlen]

lemma assignRanks_map_base (l : List TeamNR) :
    (assignRanks l).map Team.toTeamNR = l := assignRanksFrom_map_base 1 l

lemma assignRanks_map_rank (l : List TeamNR) :
    (assignRanks l).map Team.rank = List.range' 1 (assignRanks l).length := by
  have hlen : (assignRanks l).length = l.length := assignRanksFrom_length 1 l
  rw [hlen]
  exact assignRanksFrom_map_rank 1 l

lemma applySleeperDefault_base_perm (teams : List TeamNR) :
    ((applySleeperDefaultRankings teams).map Team.toTeamNR).Perm teams := by
  unfold applySleeperDefaultRankings
  rw [assignRanks_map_base]
  exact List.perm_insertionSort sleeperDefaultLe teams

lemma applyPointsRace_base_perm (teams : List TeamNR) :
    ((applyPointsRaceRankings teams).map Team.toTeamNR).Perm teams := by
  unfold applyPointsRaceRankings
  dsimp only
  rw [assignRanks_map_base]
  refine List.Perm.trans ?_ (List.perm_insertionSort sleeperDefaultLe teams)
  refine List.Perm.trans
    (List.Perm.append_left _ (List.perm_insertionSort pointsLe _)) ?_
  rw [List.take_append_drop]

lemma applyRankings_base_perm (teams : List TeamNR) (lt : Option LeagueType)
    (hids : (teams.map TeamNR.rosterId).Nodup) :
    ((applyRankings teams lt).map Team.toTeamNR).Perm teams := by
  unfold applyRankings
  dsimp only
  split_ifs with hc
  · rw [assignRanks_map_base]
    have hsortperm := List.perm_insertionSort customLe teams
    have hcandperm := List.perm_insertionSort pointsLe
      ((List.insertionSort customLe teams).drop 6)
    -- the candidate list is nonempty because at least 7 teams were sorted
    obtain ⟨c, cs, hcand⟩ : ∃ c cs,
        List.insertionSort pointsLe ((List.insertionSort customLe teams).drop 6) = c :: cs := by
      have hlen : (List.insertionSort pointsLe
          ((List.insertionSort customLe teams).drop 6)).length =
          (List.insertionSort customLe teams).length - 6 := by
        rw [hcandperm.length_eq, List.length_drop]
      rcases hx : List.insertionSort pointsLe ((List.insertionSort customLe teams).drop 6) with
        _ | ⟨c, cs⟩
      · rw [hx] at hlen
        simp at hlen
        have h7 : 7 ≤ teams.length := by simpa using hc.2
        omega
      · exact ⟨c, cs, rfl⟩
    -- roster ids in the candidate list are pairwise distinct
    have hidnodup : ((c :: cs).map TeamNR.rosterId).Nodup := by
      have hsortids : ((List.insertionSort customLe teams).map TeamNR.rosterId).Nodup :=
        (hsortperm.map TeamNR.rosterId).nodup_iff.mpr hids
      have hdropids : (((List.insertionSort customLe teams).drop 6).map TeamNR.rosterId).Nodup := by
        have hsplit : (List.insertionSort customLe teams).map TeamNR.rosterId =
            ((List.insertionSort customLe teams).take 6).map TeamNR.rosterId ++
              ((List.insertionSort customLe teams).drop 6).map TeamNR.rosterId := by
          rw [← List.map_append, List.take_append_drop]
        rw [hsplit] at hsortids
        exact hsortids.of_append_right
      rw [← hcand]
      exact (hcandperm.map TeamNR.rosterId).nodup_iff.mpr hdropids
    have hhead : (c :: cs).headI = c := rfl
    have hfilter : (c :: cs).filter (fun t => decide (t.rosterId ≠ c.rosterId)) = cs := by
      have hnotmem : c.rosterId ∉ cs.map TeamNR.rosterId := by
        have := hidnodup
        simp only [List.map_cons, List.nodup_cons] at this
        exact this.1
      rw [List.filter_cons_of_neg (by simp)]
      refine List.filter_eq_self.mpr ?_
      intro t ht
      simp only [decide_eq_true_eq]
      intro habs
      exact hnotmem (habs ▸ List.mem_map_of_mem TeamNR.rosterId ht)
    rw [hcand, hhead, hfilter, ← hcand]
    refine List.Perm.trans (List.Perm.append_left _ hcandperm) ?_
    rw [List.take_append_drop]
    exact hsortperm
  · rw [assignRanks_map_base]
    exact List.perm_insertionSort customLe teams

lemma applyRankings_map_rank (teams : List TeamNR) (lt : Option LeagueType)
    (hids : (teams.map TeamNR.rosterId).Nodup) :
    (applyRankings teams lt).map Team.rank = List.range' 1 teams.length := by
  have h1 : (applyRankings teams lt).map Team.rank =
      List.range' 1 (applyRankings teams lt).length := by
    unfold applyRankings
    dsimp only
    split_ifs <;> exact assignRanks_map_rank _
  have hlen : (applyRankings teams lt).length = teams.length := by
    have h2 := (applyRankings_base_perm teams lt hids).length_eq
    simpa using h2
  rw [h1, hlen]

/-- Claim C10: every ranking pass (default, custom, points-race) preserves
team identity — the output roster ids are a permutation of the input roster
ids — and assigns dense ranks: the rank fields in list order are exactly
1, 2, ..., N. -/
theorem c10_identity_and_dense_ranks (teams : List TeamNR) (lt : Option LeagueType)
    (hids : (teams.map TeamNR.rosterId).Nodup) :
    ((applySleeperDefaultRankings teams).map (fun t => t.rosterId)).Perm
      (teams.map TeamNR.rosterId) ∧
    (applySleeperDefaultRankings teams).map Team.rank = List.range' 1 teams.length ∧
    ((applyRankings teams lt).map (fun t => t.rosterId)).Perm (teams.map TeamNR.rosterId) ∧
    (applyRankings teams lt).map Team.rank = List.range' 1 teams.length ∧
    ((applyPointsRaceRankings teams).map (fun t => t.rosterId)).Perm
      (teams.map TeamNR.rosterId) ∧
    (applyPointsRaceRankings teams).map Team.rank = List.range' 1 teams.length := by
  refine ⟨?_, ?_, ?_, applyRankings_map_rank teams lt hids, ?_, ?_⟩
  · have h := (applySleeperDefault_base_perm teams).map TeamNR.rosterId
    rw [List.map_map] at h
    exact h
  · have h1 : (applySleeperDefaultRankings teams).map Team.rank =
        List.range' 1 (applySleeperDefaultRankings teams).length := by
      unfold applySleeperDefaultRankings
      exact assignRanks_map_rank _
    have hlen : (applySleeperDefaultRankings teams).length = teams.length := by
      have h2 := (applySleeperDefault_base_perm teams).length_eq
      simpa using h2
    rw [h1, hlen]
  · have h := (applyRankings_base_perm teams lt hids).map TeamNR.rosterId
    rw [List.map_map] at h
    exact h
  · have h := (applyPointsRace_base_perm teams).map TeamNR.rosterId
    rw [List.map_map] at h
    exact h
  · have h1 : (applyPointsRaceRankings teams).map Team.rank =
        List.range' 1 (applyPointsRaceRankings teams).length := by
      unfold applyPointsRaceRankings
      dsimp only
      exact assignRanks_map_rank _
    have hlen : (applyPointsRaceRankings teams).length = teams.length := by
      have h2 := (applyPointsRace_base_perm teams).length_eq
      simpa using h2
    rw [h1, hlen]

lemma sortStandings_self (a : TeamNR) : sortStandings a a = 0 := by
  unfold sortStandings
  simp

lemma sortStandingsSleeperDefault_self (a : TeamNR) : sortStandingsSleeperDefault a a = 0 := by
  unfold sortStandingsSleeperDefault
  simp

/-- When two teams differ on win percentage or on points-for, the custom and
default comparators return the same number: they only diverge on the
points-against step, which is reached exactly on a (win%, points-for) tie. -/
lemma sortStandings_eq_default_of_keyne (a b : TeamNR)
    (h : calculateWinPercentage a.wins a.losses a.ties ≠
          calculateWinPercentage b.wins b.losses b.ties ∨
        a.pointsFor ≠ b.pointsFor) :
    sortStandings a b = sortStandingsSleeperDefault a b := by
  unfold sortStandings sortStandingsSleeperDefault
  dsimp only
  by_cases hw : calculateWinPercentage a.wins a.losses a.ties ≠
      calculateWinPercentage b.wins b.losses b.ties
  · rw [if_pos hw, if_pos hw]
  · have hp : a.pointsFor ≠ b.pointsFor := by tauto
    rw [if_neg hw, if_neg hw, if_pos hp, if_pos hp]

lemma take6_append_cons (s : List TeamNR) (x : TeamNR) (rest : List TeamNR)
    (h : 6 ≤ s.length) :
    (s.take 6 ++ x :: rest).take 6 = s.take 6 := by
  have hlen : (s.take 6).length = 6 := by
    rw [List.length_take]
    omega
  rw [List.take_append_eq_append_take, hlen]
  simp [List.take_take]

/-- Claim C2 (amended): for at least 7 teams with distinct roster ids, ranks
1–6 of the custom (redraft) ranking are identical to ranks 1–6 of the plain
default ranking, provided no two teams are tied on both win percentage and
points-for (the two comparators only diverge on such ties, where the default
uses points-against and the custom one skips to roster id). -/
theorem c2_top6_agreement (teams : List TeamNR)
    (hlen : 7 ≤ teams.length)
    (hids : (teams.map TeamNR.rosterId).Nodup)
    (hkeys : teams.Pairwise (fun a b =>
      calculateWinPercentage a.wins a.losses a.ties ≠
          calculateWinPercentage b.wins b.losses b.ties ∨
        a.pointsFor ≠ b.pointsFor)) :
    (applyRankings teams (some LeagueType.redraft)).take 6 =
      (applySleeperDefaultRankings teams).take 6 := by
  have hsym : Symmetric (fun a b : TeamNR =>
      calculateWinPercentage a.wins a.losses a.ties ≠
          calculateWinPercentage b.wins b.losses b.ties ∨
        a.pointsFor ≠ b.pointsFor) := by
    intro a b hab
    tauto
  have hagree : ∀ a ∈ teams, ∀ b ∈ teams, (customLe a b ↔ sleeperDefaultLe a b) := by
    intro a ha b hb
    by_cases hab : a = b
    · subst hab
      unfold customLe sleeperDefaultLe
      rw [sortStandings_self, sortStandingsSleeperDefault_self]
    · have hkey := hkeys.forall hsym ha hb hab
      unfold customLe sleeperDefaultLe
      rw [sortStandings_eq_default_of_keyne a b hkey]
  have hsorteq := insertionSort_congr customLe sleeperDefaultLe teams hagree
  have hslen : 7 ≤ (List.insertionSort customLe teams).length := by
    rw [(List.perm_insertionSort customLe teams).length_eq]
    exact hlen
  unfold applyRankings applySleeperDefaultRankings
  dsimp only
  rw [if_pos ⟨rfl, hslen⟩]
  unfold assignRanks
  rw [assignRanksFrom_take, assignRanksFrom_take,
    take6_append_cons _ _ _ (by omega), hsorteq]

/-- Test fixture: a team with the given roster id, wins, losses, and points. -/
def mkTeam (id w l : Nat) (pf pa : ℚ) : TeamNR :=
  ⟨id, "owner", "Team", none, w, l, 0, pf, pa, 0⟩

/-- Seven teams with pairwise distinct win percentages. -/
def c2wTeams : List TeamNR :=
  [mkTeam 1 9 0 300 0, mkTeam 2 8 1 290 0, mkTeam 3 7 2 280 0, mkTeam 4 6 3 270 0,
   mkTeam 5 5 4 260 0, mkTeam 6 4 5 250 0, mkTeam 7 3 6 240 0]

/-- Claim C2, witness: the amended statement applied to seven concrete teams
with pairwise distinct win percentages. -/
theorem c2_top6_witness :
    7 ≤ c2wTeams.length ∧ (c2wTeams.map TeamNR.rosterId).Nodup ∧
    (applyRankings c2wTeams (some LeagueType.redraft)).take 6 =
      (applySleeperDefaultRankings c2wTeams).take 6 :=
  ⟨by decide, by decide,
    c2_top6_agreement c2wTeams (by decide) (by decide) (by with_unfolding_all decide)⟩

/-- Seven teams where the top two tie on win percentage and points-for but
differ on points-against: the default comparator puts roster id 2 (more
points against) first, the custom comparator puts roster id 1 first. -/
def c2cTeams : List TeamNR :=
  [mkTeam 1 5 4 100 10, mkTeam 2 5 4 100 20, mkTeam 3 4 5 280 0, mkTeam 4 3 6 270 0,
   mkTeam 5 2 7 260 0, mkTeam 6 1 8 250 0, mkTeam 7 0 9 240 0]

/-- Claim C2, counterexample: a 7-team list with distinct roster ids on which
ranks 1–6 of the custom ranking differ from ranks 1–6 of the default ranking
(the points-against tiebreak reorders the top two). -/
theorem c2_top6_counterexample :
    7 ≤ c2cTeams.length ∧ (c2cTeams.map TeamNR.rosterId).Nodup ∧
    (applyRankings c2cTeams (some LeagueType.redraft)).take 6 ≠
      (applySleeperDefaultRankings c2cTeams).take 6 := by
  refine ⟨by decide, by decide, by with_unfolding_all decide⟩

/-- Claim C10, witness: identity preservation and dense ranks on seven
concrete teams under the custom redraft pass. -/
theorem c10_witness :
    (c2wTeams.map TeamNR.rosterId).Nodup ∧
    (applyRankings c2wTeams (some LeagueType.redraft)).map Team.rank =
      List.range' 1 c2wTeams.length :=
  ⟨by decide,
    (c10_identity_and_dense_ranks c2wTeams (some LeagueType.redraft) (by decide)).2.2.2.1⟩

/-- Nine teams: the full custom sort orders them by roster id 1..9 (strictly
decreasing win percentage); among the tail (ids 7, 8, 9) the points order is
reversed (ids 9, 8, 7). -/
def c1Teams : List TeamNR :=
  [mkTeam 1 9 0 300 0, mkTeam 2 8 1 290 0, mkTeam 3 7 2 280 0, mkTeam 4 6 3 270 0,
   mkTeam 5 5 4 260 0, mkTeam 6 4 5 250 0,
   mkTeam 7 3 6 100 0, mkTeam 8 2 7 150 0, mkTeam 9 1 8 200 0]

/-- Claim C1 (code bug): on `c1Teams` the full custom sort is ids 1..9, so
after promoting the highest-points team (id 9) to position 7 the claim — and
the source's own comment "manter os outros na ordem original" — require the
output ids (1,2,3,4,5,6,9,7,8); but `Array.prototype.sort` mutated
`remaining` in place, so the code emits positions 8 and 9 in points order:
(1,2,3,4,5,6,9,8,7). -/
theorem c1_inplace_sort_bug :
    ((List.insertionSort customLe c1Teams).map TeamNR.rosterId) =
      [1, 2, 3, 4, 5, 6, 7, 8, 9] ∧
    (applyRankings c1Teams (some LeagueType.redraft)).map (fun t => t.rosterId) =
      [1, 2, 3, 4, 5, 6, 9, 8, 7] ∧
    (applyRankings c1Teams (some LeagueType.redraft)).map (fun t => t.rosterId) ≠
      [1, 2, 3, 4, 5, 6, 9, 7, 8] := by
  refine ⟨by with_unfolding_all decide, by with_unfolding_all decide,
    by with_unfolding_all decide⟩

end TflSnapshot
